import Mathlib

/-!
# Verification of the creatorflow backend (api/views.py)

Shallow embedding of the credit-ledger, webhook, and generation-pipeline
logic of `api/views.py`, together with proofs and refutations of the
frozen specification claims.

Conventions:
* Python strings are Lean `String`s; character-level work happens on
  `List Char` via `String.toList`/`String.mk`.
* Python `None` / exceptions are modelled with `Option` / `Except PyErr`.
* Firestore documents are modelled as explicit records; the merge-write
  `ref.set(updates, merge=True)` is modelled by `mergeSet`, where a staged
  dotted field path `processedTxns.<txn>` sets the nested member of
  `processedTxns` (the intended field-path reading of the source).
-/

namespace CreatorFlow

/-! ## Python string primitives -/

/-- Whitespace as recognised by Python `str.split()` / `\s` (ASCII part). -/
def pyIsSpace (c : Char) : Bool :=
  c = ' ' || c = '\t' || c = '\n' || c = '\r' || c = '\x0b' || c = '\x0c'

/-- Word characters for the regex `\b` boundary (`[A-Za-z0-9_]`, ASCII part). -/
def pyIsWord (c : Char) : Bool :=
  c.isAlphanum || c = '_'

/-- `str.strip()` on a character list: drop whitespace from both ends. -/
def pyStripL (l : List Char) : List Char :=
  ((l.dropWhile pyIsSpace).reverse.dropWhile pyIsSpace).reverse

/-- `str.strip()`. -/
def pyStrip (s : String) : String :=
  String.mk (pyStripL s.toList)

/-- `str.rstrip(chars)` on a list: drop chars from the given set at the end. -/
def pyRstripL (set : List Char) (l : List Char) : List Char :=
  (l.reverse.dropWhile (fun c => set.contains c)).reverse

/-- `str.split()` (no argument): split on whitespace runs, dropping
empties.  Structurally recursive: a non-space character either starts a
new word (next char is space or end) or is prepended to the first word of
the tail's split. -/
def pySplit : List Char → List (List Char)
  | [] => []
  | c :: rest =>
    if pyIsSpace c then pySplit rest
    else
      match rest, pySplit rest with
      | [], _ => [[c]]
      | d :: _, r =>
        if pyIsSpace d then [c] :: r
        else
          match r with
          | [] => [[c]]
          | w :: ws => (c :: w) :: ws

/-- Number of words of a string in the sense of Python `len(s.split())`. -/
def wordCount (s : String) : Nat :=
  (pySplit s.toList).length

/-- `" ".join(words)` on character lists. -/
def joinWords : List (List Char) → List Char
  | [] => []
  | [w] => w
  | w :: ws => w ++ ' ' :: joinWords ws

/-! ## Plan constants (views.py lines 552-557) -/

/-- `PLAN_CREDITS = {"Basic": 50, "Pro": 200, "Premium": 1000}`. -/
def PLAN_CREDITS : List (String × Int) :=
  [("Basic", 50), ("Pro", 200), ("Premium", 1000)]

/-- `PLAN_CREDITS.get(plan, default)`. -/
def planCreditsGet (plan : String) (dflt : Int) : Int :=
  match PLAN_CREDITS.lookup plan with
  | some n => n
  | none => dflt

/-- `PAID_PLANS = {"Pro", "Premium"}`. -/
def PAID_PLANS : List String := ["Pro", "Premium"]

/-! ## Firestore user documents and merge writes -/

/-- A user document in the `users` collection (spec.md section 3; absent
fields default to empty/zero on read, so they are carried concretely). -/
structure UserDoc where
  subscriptionSelected : Bool
  subscriptionPlan : String
  credits : Int
  freeBasicGranted : Bool
  processedTxns : List String
  lastPaidTxn : Option String
  creditDepletedAt : Option String

/-- The `updates` dict staged by `_fs_set_user` before `ref.set(updates,
merge=True)`.  `creditDepletedAt` is staged as an explicit value (which may
be `none`, i.e. JSON null); `processedTxnsAdd` holds the transaction ids
staged through the dotted field path `processedTxns.<txn>`. -/
structure FsUpdates where
  subscriptionSelected : Option Bool
  subscriptionPlan : Option String
  creditDepletedAt : Option (Option String)
  credits : Option Int
  freeBasicGranted : Option Bool
  processedTxnsAdd : List String
  lastPaidTxn : Option String

/-- `ref.set(updates, merge=True)`: staged fields overwrite, unmentioned
fields are kept; staged transaction ids are added to `processedTxns`. -/
def mergeSet (d : UserDoc) (u : FsUpdates) : UserDoc where
  subscriptionSelected := u.subscriptionSelected.getD d.subscriptionSelected
  subscriptionPlan := u.subscriptionPlan.getD d.subscriptionPlan
  credits := u.credits.getD d.credits
  freeBasicGranted := u.freeBasicGranted.getD d.freeBasicGranted
  processedTxns :=
    u.processedTxnsAdd.foldl
      (fun acc t => if acc.contains t then acc else acc ++ [t]) d.processedTxns
  lastPaidTxn := match u.lastPaidTxn with
    | some t => some t
    | none => d.lastPaidTxn
  creditDepletedAt := u.creditDepletedAt.getD d.creditDepletedAt

/-- The always-staged part of `updates` (views.py lines 645-649). -/
def baseUpdates (plan : String) : FsUpdates where
  subscriptionSelected := some true
  subscriptionPlan := some plan
  creditDepletedAt := some none
  credits := none
  freeBasicGranted := none
  processedTxnsAdd := []
  lastPaidTxn := none

/-- `_fs_set_user` (views.py lines 618-683), modelled on a located document
(the `by_uid` branch with an existing `ref`, or a successful by-email
lookup; a failed email lookup or unavailable client returns `False` with no
write at the call sites and is not needed by the claims).  Python
truthiness of `transaction_id` means `some t` with `t ≠ ""` takes the
per-transaction branch, while `none` and `some ""` take the
no-transaction-id fallback branch. -/
def fs_set_user (doc : UserDoc) (plan : String)
    (credits_to_grant : Option Int) (transaction_id : Option String) :
    Bool × UserDoc :=
  let txn : Option String :=
    match transaction_id with
    | some t => if t = "" then none else some t
    | none => none
  let updates : FsUpdates :=
    if plan = "Basic" then
      if !doc.freeBasicGranted then
        { baseUpdates plan with
            credits := some (planCreditsGet "Basic" 0),
            freeBasicGranted := some true }
      else baseUpdates plan
    else if PAID_PLANS.contains plan then
      match txn with
      | some t =>
        if doc.processedTxns.contains t then baseUpdates plan
        else
          { baseUpdates plan with
              credits := some (credits_to_grant.getD (planCreditsGet plan 0)),
              processedTxnsAdd := [t],
              lastPaidTxn := some t }
      | none =>
        { baseUpdates plan with
            credits := some (credits_to_grant.getD (planCreditsGet plan 0)) }
    else baseUpdates plan
  (true, mergeSet doc updates)

/-! ## Python values (JSON payloads, webhook bodies) -/

/-- Python/JSON values as they occur in webhook payloads and responses.
Floats are modelled as exact rationals (`json.loads` turns decimal
literals into floats; only equality against the hard-coded literals in
`_detect_credits` is ever exercised). -/
inductive PyVal where
  | none
  | bool (b : Bool)
  | int (n : Int)
  | float (q : Rat)
  | str (s : String)
  | list (xs : List PyVal)
  | dict (kvs : List (String × PyVal))

/-- Numeric view for Python `==` (bool is an int subtype: `True == 1`). -/
def pyNum : PyVal → Option Rat
  | .bool b => some (if b then 1 else 0)
  | .int n => some (n : Rat)
  | .float q => some q
  | _ => Option.none

mutual

/-- Python `==` (numeric cross-type equality; dict comparison is modelled
order-sensitively, which the embedded code never exercises on dicts). -/
def pyEq : PyVal → PyVal → Bool
  | .none, .none => true
  | .str s, .str t => s = t
  | .list xs, .list ys => pyEqList xs ys
  | .dict xs, .dict ys => pyEqDict xs ys
  | a, b =>
    match pyNum a, pyNum b with
    | some x, some y => x = y
    | _, _ => false

def pyEqList : List PyVal → List PyVal → Bool
  | [], [] => true
  | x :: xs, y :: ys => pyEq x y && pyEqList xs ys
  | _, _ => false

def pyEqDict : List (String × PyVal) → List (String × PyVal) → Bool
  | [], [] => true
  | (k, v) :: xs, (k2, v2) :: ys => k = k2 && pyEq v v2 && pyEqDict xs ys
  | _, _ => false

end

/-- Python truthiness. -/
def pyTruthy : PyVal → Bool
  | .none => false
  | .bool b => b
  | .int n => n ≠ 0
  | .float q => q ≠ 0
  | .str s => s ≠ ""
  | .list xs => !xs.isEmpty
  | .dict kvs => !kvs.isEmpty

/-- `a or b`. -/
def pyOr (a b : PyVal) : PyVal := if pyTruthy a then a else b

/-- `d.get(k)` (default `None`); the embedded code only calls `.get` on
dict receivers. -/
def pyGet (v : PyVal) (k : String) : PyVal :=
  match v with
  | .dict kvs => ((kvs.lookup k).getD .none)
  | _ => .none

/-- `d.get(k, dflt)`. -/
def pyGetD (v : PyVal) (k : String) (dflt : PyVal) : PyVal :=
  match v with
  | .dict kvs => ((kvs.lookup k).getD dflt)
  | _ => dflt

/-- `str.title()`: a letter is uppercased when the previous character is
not a letter, lowercased otherwise (ASCII view). -/
def pyTitleL : List Char → Bool → List Char
  | [], _ => []
  | c :: rest, prevAlpha =>
    (if c.isAlpha then (if prevAlpha then c.toLower else c.toUpper) else c)
      :: pyTitleL rest c.isAlpha

/-- `str.title()`. -/
def pyTitle (s : String) : String := String.mk (pyTitleL s.toList false)

/-- Does `needle` occur at the start of `hay`? (helper for `in`). -/
def subAt : List Char → List Char → Bool
  | _, [] => true
  | [], _ :: _ => false
  | h :: hs, n :: ns => h = n && subAt hs ns

/-- Python `needle in hay` on strings (substring containment). -/
def strContainsSub (hay needle : String) : Bool :=
  go hay.toList needle.toList
where
  go : List Char → List Char → Bool
    | [], needle => needle.isEmpty
    | h :: hs, needle => subAt (h :: hs) needle || go hs needle

/-- Uncaught Python exceptions surfaced by the embedded handlers (Django
turns these into HTTP 500 responses). -/
inductive PyErr where
  | typeError (msg : String)
  | nameError (idName : String)
  | attributeError (msg : String)
  | indexError

/-! ## `json.loads` (strict JSON parsing, as used by `_decode_passthrough`
and the webhook body) -/

/-- JSON whitespace. -/
def jsonWs (c : Char) : Bool := c = ' ' || c = '\t' || c = '\n' || c = '\r'

/-- Digits of a JSON number. -/
def digitsToNat (l : List Char) : Nat :=
  l.foldl (fun acc c => acc * 10 + (c.toNat - '0'.toNat)) 0

/-- Parse the body of a JSON string literal (after the opening quote),
returning the characters and the rest after the closing quote. -/
def parseJsonStr : List Char → Option (List Char × List Char)
  | [] => Option.none
  | '"' :: rest => some ([], rest)
  | '\\' :: rest =>
    match rest with
    | 'n' :: rs => (parseJsonStr rs).map (fun (s, r) => ('\n' :: s, r))
    | 't' :: rs => (parseJsonStr rs).map (fun (s, r) => ('\t' :: s, r))
    | 'r' :: rs => (parseJsonStr rs).map (fun (s, r) => ('\r' :: s, r))
    | 'b' :: rs => (parseJsonStr rs).map (fun (s, r) => ('\x08' :: s, r))
    | 'f' :: rs => (parseJsonStr rs).map (fun (s, r) => ('\x0c' :: s, r))
    | '"' :: rs => (parseJsonStr rs).map (fun (s, r) => ('"' :: s, r))
    | '\\' :: rs => (parseJsonStr rs).map (fun (s, r) => ('\\' :: s, r))
    | '/' :: rs => (parseJsonStr rs).map (fun (s, r) => ('/' :: s, r))
    | 'u' :: a :: b :: c :: d :: rs =>
      let hex (ch : Char) : Bool :=
        ch.isDigit || ('a' ≤ ch && ch ≤ 'f') || ('A' ≤ ch && ch ≤ 'F')
      if hex a && hex b && hex c && hex d then
        let hv (ch : Char) : Nat :=
          if ch.isDigit then ch.toNat - '0'.toNat
          else if 'a' ≤ ch && ch ≤ 'f' then ch.toNat - 'a'.toNat + 10
          else ch.toNat - 'A'.toNat + 10
        let u := ((hv a * 16 + hv b) * 16 + hv c) * 16 + hv d
        (parseJsonStr rs).map (fun (s, r) => (Char.ofNat u :: s, r))
      else Option.none
    | _ => Option.none
  | c :: rest =>
    if c.toNat < 32 then Option.none
    else (parseJsonStr rest).map (fun (s, r) => (c :: s, r))

/-- Parse a JSON number starting at the given characters. -/
def parseJsonNum (l : List Char) : Option (PyVal × List Char) :=
  let (neg, l1) := match l with
    | '-' :: rest => (true, rest)
    | _ => (false, l)
  let intPart := l1.takeWhile Char.isDigit
  let l2 := l1.dropWhile Char.isDigit
  if intPart.isEmpty then Option.none
  else if intPart.length > 1 && intPart.headD '0' = '0' then Option.none
  else
    let iv : Int := (digitsToNat intPart : Int)
    let (fracDigits, l3) := match l2 with
      | '.' :: rest => (rest.takeWhile Char.isDigit, rest.dropWhile Char.isDigit)
      | _ => ([], l2)
    let hasFrac := match l2 with
      | '.' :: _ => true
      | _ => false
    if hasFrac && fracDigits.isEmpty then Option.none
    else
      let (hasExp, expNeg, expDigits, l4) := match l3 with
        | 'e' :: '+' :: rest => (true, false, rest.takeWhile Char.isDigit, rest.dropWhile Char.isDigit)
        | 'e' :: '-' :: rest => (true, true, rest.takeWhile Char.isDigit, rest.dropWhile Char.isDigit)
        | 'e' :: rest => (true, false, rest.takeWhile Char.isDigit, rest.dropWhile Char.isDigit)
        | 'E' :: '+' :: rest => (true, false, rest.takeWhile Char.isDigit, rest.dropWhile Char.isDigit)
        | 'E' :: '-' :: rest => (true, true, rest.takeWhile Char.isDigit, rest.dropWhile Char.isDigit)
        | 'E' :: rest => (true, false, rest.takeWhile Char.isDigit, rest.dropWhile Char.isDigit)
        | _ => (false, false, [], l3)
      if hasExp && expDigits.isEmpty then Option.none
      else if !hasFrac && !hasExp then
        some (.int (if neg then -iv else iv), l2)
      else
        let mantissa : Rat :=
          (iv : Rat) + (digitsToNat fracDigits : Rat) / ((10 : Rat) ^ fracDigits.length)
        let scaled : Rat :=
          if expNeg then mantissa / ((10 : Rat) ^ digitsToNat expDigits)
          else mantissa * ((10 : Rat) ^ digitsToNat expDigits)
        some (.float (if neg then -scaled else scaled), l4)

mutual

/-- Parse one JSON value (fuelled recursive descent). -/
def parseJsonVal : Nat → List Char → Option (PyVal × List Char)
  | 0, _ => Option.none
  | fuel + 1, l =>
    match l.dropWhile jsonWs with
    | [] => Option.none
    | 'n' :: 'u' :: 'l' :: 'l' :: rest => some (.none, rest)
    | 't' :: 'r' :: 'u' :: 'e' :: rest => some (.bool true, rest)
    | 'f' :: 'a' :: 'l' :: 's' :: 'e' :: rest => some (.bool false, rest)
    | '"' :: rest =>
      (parseJsonStr rest).map (fun (s, r) => (.str (String.mk s), r))
    | '[' :: rest =>
      (match (rest.dropWhile jsonWs) with
       | ']' :: r2 => some (.list [], r2)
       | _ =>
         match parseJsonVal fuel rest with
         | some (v, r2) =>
           (parseJsonArr fuel r2).map (fun (vs, r3) => (.list (v :: vs), r3))
         | Option.none => Option.none)
    | '{' :: rest =>
      (match (rest.dropWhile jsonWs) with
       | '}' :: r2 => some (.dict [], r2)
       | _ =>
         match parseJsonPair fuel rest with
         | some (kv, r2) =>
           (parseJsonObj fuel r2).map (fun (kvs, r3) => (.dict (kv :: kvs), r3))
         | Option.none => Option.none)
    | c :: rest =>
      if c = '-' || c.isDigit then parseJsonNum (c :: rest) else Option.none

/-- Remaining array elements after the first (`, v` repeated, then `]`). -/
def parseJsonArr : Nat → List Char → Option (List PyVal × List Char)
  | 0, _ => Option.none
  | fuel + 1, l =>
    match l.dropWhile jsonWs with
    | ']' :: rest => some ([], rest)
    | ',' :: rest =>
      (match parseJsonVal fuel rest with
       | some (v, r2) =>
         (parseJsonArr fuel r2).map (fun (vs, r3) => (v :: vs, r3))
       | Option.none => Option.none)
    | _ => Option.none

/-- One `"key": value` pair. -/
def parseJsonPair : Nat → List Char → Option ((String × PyVal) × List Char)
  | 0, _ => Option.none
  | fuel + 1, l =>
    match l.dropWhile jsonWs with
    | '"' :: rest =>
      (match parseJsonStr rest with
       | some (k, r2) =>
         (match r2.dropWhile jsonWs with
          | ':' :: r3 =>
            (parseJsonVal fuel r3).map (fun (v, r4) => ((String.mk k, v), r4))
          | _ => Option.none)
       | Option.none => Option.none)
    | _ => Option.none

/-- Remaining object members after the first. -/
def parseJsonObj : Nat → List Char → Option (List (String × PyVal) × List Char)
  | 0, _ => Option.none
  | fuel + 1, l =>
    match l.dropWhile jsonWs with
    | '}' :: rest => some ([], rest)
    | ',' :: rest =>
      (match parseJsonPair fuel rest with
       | some (kv, r2) =>
         (parseJsonObj fuel r2).map (fun (kvs, r3) => (kv :: kvs, r3))
       | Option.none => Option.none)
    | _ => Option.none

end

/-- `json.loads`: parse a complete JSON document, requiring only trailing
whitespace after the value. -/
def jsonLoads (s : String) : Option PyVal :=
  match parseJsonVal (s.toList.length + 2) s.toList with
  | some (v, rest) => if (rest.dropWhile jsonWs).isEmpty then some v else Option.none
  | Option.none => Option.none

/-! ## `base64.b64encode` and `json.dumps` (used to build claim inputs) -/

/-- The standard base64 alphabet. -/
def b64alphabet : List Char :=
  "ABCDEFGHIJKLMNOPQRSTUVWXYZabcdefghijklmnopqrstuvwxyz0123456789+/".toList

/-- Character for a 6-bit group. -/
def b64chr (n : Nat) : Char := (b64alphabet.drop n).headD 'A'

/-- Standard base64 of a byte sequence. -/
def b64encodeBytes : List Nat → List Char
  | [] => []
  | [a] => [b64chr (a / 4), b64chr (a % 4 * 16), '=', '=']
  | [a, b] => [b64chr (a / 4), b64chr (a % 4 * 16 + b / 16), b64chr (b % 16 * 4), '=']
  | a :: b :: c :: rest =>
    b64chr (a / 4) :: b64chr (a % 4 * 16 + b / 16) ::
      b64chr (b % 16 * 4 + c / 64) :: b64chr (c % 64) :: b64encodeBytes rest

/-- `base64.b64encode` on an ASCII string (UTF-8 bytes = code points). -/
def b64encode (s : String) : String :=
  String.mk (b64encodeBytes (s.toList.map Char.toNat))

/-- JSON string literal escaping as `json.dumps` performs it for ASCII
content. -/
def jsonDumpStr (s : String) : String :=
  String.mk ('"' :: (s.toList.flatMap (fun c =>
    if c = '"' then ['\\', '"']
    else if c = '\\' then ['\\', '\\']
    else if c = '\n' then ['\\', 'n']
    else if c = '\t' then ['\\', 't']
    else if c = '\r' then ['\\', 'r']
    else [c])) ++ ['"'])

mutual

/-- `json.dumps` with default separators `", "` and `": "` (floats are not
serialised faithfully; no claim input contains one). -/
def jsonDumps : PyVal → String
  | .none => "null"
  | .bool true => "true"
  | .bool false => "false"
  | .int n => toString n
  | .float _ => "0.0"
  | .str s => jsonDumpStr s
  | .list xs => "[" ++ jsonDumpsList xs ++ "]"
  | .dict kvs => "\x7b" ++ jsonDumpsDict kvs ++ "\x7d"

def jsonDumpsList : List PyVal → String
  | [] => ""
  | [x] => jsonDumps x
  | x :: xs => jsonDumps x ++ ", " ++ jsonDumpsList xs

def jsonDumpsDict : List (String × PyVal) → String
  | [] => ""
  | [(k, v)] => jsonDumpStr k ++ ": " ++ jsonDumps v
  | (k, v) :: kvs => jsonDumpStr k ++ ": " ++ jsonDumps v ++ ", " ++ jsonDumpsDict kvs

end

/-! ## Paddle webhook helpers (views.py lines 688-786) -/

/-- `_decode_passthrough` (views.py lines 688-707).  The first attempt,
`base64.b64decode(value)`, always raises `NameError` because `base64` is
never imported in views.py; the exception is swallowed by the enclosing
`except`, so only the direct `json.loads` attempt remains effective. -/
def decode_passthrough (value : PyVal) : PyVal :=
  if !pyTruthy value then .dict []
  else
    match value with
    | .dict kvs => .dict kvs
    | .str s =>
      match jsonLoads s with
      | some v => v
      | Option.none => .dict []
    | _ => .dict []

/-- `_get_identity_and_plan` (views.py lines 709-737).  Raises
`AttributeError` when the extracted plan label is truthy but not a string
(`plan_label.title()`). -/
def get_identity_and_plan (data : PyVal) :
    Except PyErr (PyVal × PyVal × Option String) := do
  let planLabel0 :=
    pyOr (pyOr (pyGet (pyOr (pyGet data "custom_data") (.dict [])) "plan")
               (pyGet (pyOr (pyGet data "metadata") (.dict [])) "plan"))
         .none
  let passthroughRaw :=
    pyOr (pyOr (pyGet data "passthrough")
               (pyGet (pyOr (pyGetD data "checkout" (.dict [])) (.dict [])) "passthrough"))
         (pyGet (pyOr (pyGetD data "transaction" (.dict [])) (.dict [])) "passthrough")
  let pt := decode_passthrough passthroughRaw
  let uid := pyGet pt "uid"
  let planLabel := if pyTruthy planLabel0 then planLabel0 else pyGet pt "plan"
  let email :=
    pyOr (pyOr (pyGet (pyOr (pyGet data "customer") (.dict [])) "email")
               (pyGet data "customer_email"))
         (pyOr (pyGet (pyOr (pyGet data "billing_details") (.dict [])) "email")
               (pyGet pt "email"))
  if pyTruthy planLabel then
    match planLabel with
    | .str s => return (uid, email, some (pyTitle s))
    | _ => throw (.attributeError "plan label has no attribute title")
  else
    return (uid, email, Option.none)

/-- `_infer_plan_from_names` (views.py lines 739-765).  Any shape the code
would trip over is absorbed by its `except: pass` into `None`. -/
def infer_plan_from_names (data : PyVal) : Option String :=
  let items := pyOr (pyGet data "items") (.list [])
  let fromItems : Option String :=
    match items with
    | .list (it0 :: _) =>
      let price := pyOr (pyGet it0 "price") (.dict [])
      match pyOr (pyGet price "name") (.str "") with
      | .str s =>
        if strContainsSub s.toLower "premium" then some "Premium"
        else if strContainsSub s.toLower "pro" then some "Pro"
        else Option.none
      | _ => Option.none
    | _ => Option.none
  match fromItems with
  | some p => some p
  | Option.none =>
    let li := pyOr (pyGet (pyOr (pyGet data "details") (.dict [])) "line_items") (.list [])
    match li with
    | .list (li0 :: _) =>
      match pyGetD (pyOr (pyGet li0 "product") (.dict [])) "name" (.str "") with
      | .str s =>
        if strContainsSub s.toLower "premium" then some "Premium"
        else if strContainsSub s.toLower "pro" then some "Pro"
        else Option.none
      | _ => Option.none
    | _ => Option.none

/-- `_detect_credits` (views.py lines 767-786). -/
def detect_credits (planLabel : Option String) (data : PyVal) : Int :=
  if planLabel = some "Pro" then 200
  else if planLabel = some "Premium" then 1000
  else
    let amount :=
      pyGet (pyGetD (pyOr (pyGet data "details") (.dict [])) "totals" (.dict []))
        "grand_total"
    let isAny (vs : List PyVal) : Bool := vs.any (fun v => pyEq amount v)
    if isAny [.int 646, .str "6.46", .float (6.46 : Rat), .str "646"] then 200
    else if isAny [.int 1669, .str "16.69", .float (16.69 : Rat), .str "1669"] then 1000
    else if isAny [.int 575, .str "5.75", .float (5.75 : Rat), .str "575"] then 200
    else 0

/-- The webhook's allow-list of event types. -/
def interestingEvents : List String :=
  ["transaction.completed", "subscription.activated",
   "subscription.payment_succeeded", "checkout.completed"]

/-- `paddle_webhook` (views.py lines 788-847), modelled on a POST request
whose body parsed as JSON to `payload`.  A returned value is the body of a
`JsonResponse` with status 200; a thrown `PyErr` is an exception escaping
the view (Django returns HTTP 500).  The calls
`_fs_set_user(uid, plan, credits, by_uid=True)` (lines 838 and 840) pass
`credits` as a third positional argument, but `credits_to_grant` is
keyword-only in `_fs_set_user` (line 618), so they raise `TypeError`
before any Firestore access. -/
def paddle_webhook (payload : PyVal) : Except PyErr PyVal := do
  let event := pyOr (pyGet payload "event") payload
  let eventType := pyOr (pyOr (pyGet event "type") (pyGet event "name")) (.str "unknown")
  let data := pyOr (pyOr (pyGet event "data") (pyGet event "object")) payload
  let isInteresting :=
    match eventType with
    | .str s => interestingEvents.contains s
    | _ => false
  if !isInteresting then
    return .dict [("ok", .bool true), ("ignored", eventType)]
  let (uid, email, plan0) ← get_identity_and_plan data
  let plan : Option String :=
    match plan0 with
    | some p => some p
    | Option.none => infer_plan_from_names data
  let _credits := detect_credits plan data
  match plan with
  | Option.none => return .dict [("ok", .bool true), ("ignored", .str "unknown_plan")]
  | some _ =>
    if pyTruthy uid then
      throw (.typeError "_fs_set_user() takes 2 positional arguments but 3 were given")
    else if pyTruthy email then
      throw (.typeError "_fs_set_user() takes 2 positional arguments but 3 were given")
    else
      return .dict [("ok", .bool true), ("no_user", .bool true)]

/-- `confirm_plan` (views.py lines 852-872), modelled on a POST request
with valid JSON body.  The bad-uid/plan branch would raise `NameError`
(`HttpResponseBadRequest` is not imported in views.py); the valid branch
reaches `_fs_set_user(uid, plan, credits, by_uid=True)` (line 871), a
third positional argument to keyword-only `credits_to_grant`, and raises
`TypeError`. -/
def confirm_plan (body : PyVal) : Except PyErr PyVal := do
  let uid := pyGet body "uid"
  let plan := pyGet body "plan"
  let planOk :=
    match plan with
    | .str s => ["Pro", "Premium", "Basic"].contains s
    | _ => false
  if !pyTruthy uid || !planOk then
    throw (.nameError "HttpResponseBadRequest")
  let _credits : Int :=
    if pyEq plan (.str "Pro") then 200
    else if pyEq plan (.str "Premium") then 1000 else 50
  throw (.typeError "_fs_set_user() takes 2 positional arguments but 3 were given")

/-- `refresh_credits` (views.py lines 1052-1115), modelled from the point
where the user document has been located (`doc = snap.to_dict() or {}`).
When the plan is paid and the balance is ≤ 0 the handler executes
`now = datetime.utcnow()` (line 1098); views.py imports `datetime as _dt`
only, so the bare name `datetime` is unbound and the view raises
`NameError` (Django returns HTTP 500). -/
def refresh_credits (doc : UserDoc) : Except PyErr (PyVal × UserDoc) := do
  let plan := pyTitle doc.subscriptionPlan
  let credits := doc.credits
  let selectedFix := PAID_PLANS.contains plan && !doc.subscriptionSelected
  if PAID_PLANS.contains plan && credits ≤ 0 then
    throw (.nameError "datetime")
  if selectedFix then
    return (.dict [("ok", .bool true), ("updated", .bool true)],
      { doc with subscriptionSelected := true })
  return (.dict [("ok", .bool true), ("updated", .bool false)], doc)

/-! ## OpenRouter completion calls (views.py lines 118-208) -/

/-- A chat message `{"role": ..., "content": ...}`. -/
structure Msg where
  role : String
  content : String
deriving DecidableEq

/-- The `(content, meta, error)` triple returned by `call_openrouter`.
`call_openrouter` performs network I/O (retries, backoff, HTTP) and is
treated as an opaque environment; its result for a given message list and
model name is all the caller observes. -/
structure CallOut where
  content : Option String
  meta : PyVal
  err : Option PyVal

/-- An oracle standing for `call_openrouter`: message list and model name
to result. -/
def Oracle := List Msg → String → CallOut

/-- `OPENROUTER_MODEL_PRIMARY` (config default). -/
def OPENROUTER_MODEL_PRIMARY : String := "openai/gpt-4o-mini"

/-- `OPENROUTER_MODEL_FALLBACK` (config default). -/
def OPENROUTER_MODEL_FALLBACK : String := "meta-llama/llama-3.1-70b-instruct"

/-- Python truthiness of `content` (`if content:`): `None` and `""` are
falsy. -/
def strTruthy : Option String → Bool
  | Option.none => false
  | some s => s ≠ ""

/-- `None` becomes JSON null when placed in a dict. -/
def optVal : Option PyVal → PyVal
  | Option.none => .none
  | some v => v

/-- `generate_with_fallback` (views.py lines 199-208), instrumented with
the list of completion calls it makes (message list and model of each, in
order).  The first component is the source function's `(content, meta,
err)` value. -/
def generate_with_fallback (call : Oracle) (messages : List Msg) :
    (Option String × PyVal × Option PyVal) × List (List Msg × String) :=
  let r1 := call messages OPENROUTER_MODEL_PRIMARY
  if strTruthy r1.content then
    ((r1.content, r1.meta, Option.none), [(messages, OPENROUTER_MODEL_PRIMARY)])
  else
    let r2 := call messages OPENROUTER_MODEL_FALLBACK
    if strTruthy r2.content then
      ((r2.content, r2.meta, Option.none),
       [(messages, OPENROUTER_MODEL_PRIMARY), (messages, OPENROUTER_MODEL_FALLBACK)])
    else
      ((Option.none, r2.meta,
        some (.dict [("primary", optVal r1.err), ("fallback", optVal r2.err)])),
       [(messages, OPENROUTER_MODEL_PRIMARY), (messages, OPENROUTER_MODEL_FALLBACK)])

/-! ## Premium output sanitizers (views.py lines 245-349) -/

/-- The terminal punctuation class `[.!?]`. -/
def termPunct (c : Char) : Bool := c = '.' || c = '!' || c = '?'

/-- Reversed-list worker for the `[.!?]$` search. -/
def endPunctRev : List Char → Bool
  | [] => false
  | c :: rest =>
    if termPunct c then true
    else if c = '\n' then
      match rest with
      | c2 :: _ => termPunct c2
      | [] => false
    else false

/-- `re.search(r"[.!?]$", s)`: a terminal-punctuation character at the end
of the string, or immediately before a single trailing newline. -/
def endPunctMatch (l : List Char) : Bool := endPunctRev l.reverse

/-- `_ensure_end_punct` (views.py lines 253-254). -/
def ensure_end_punct (s : String) : String :=
  if endPunctMatch s.toList then s
  else if s = "" then s
  else s ++ "."

/-- The character class stripped by `_strip_md_noise`. -/
def mdNoiseChars : List Char := ['*', '_', Char.ofNat 96, '>', '#', '~']

/-- `_strip_md_noise` (views.py lines 250-251). -/
def strip_md_noise (s : String) : String :=
  String.mk (pyStripL (s.toList.filter (fun c => !mdNoiseChars.contains c)))

/-- Scan for the lazy first match of `^(.+?[.!?])(\s|$)`: the shortest
prefix of length ≥ 2 ending in terminal punctuation followed by
whitespace or the end. -/
def findSentenceEnd : List Char → List Char → Option (List Char)
  | _acc, [] => Option.none
  | acc, c :: rest =>
    if !acc.isEmpty && termPunct c && (rest.isEmpty || pyIsSpace (rest.headD 'x')) then
      some (acc ++ [c])
    else findSentenceEnd (acc ++ [c]) rest

/-- Not a line-break character (the `str.splitlines` separators used
here). -/
def notNL (c : Char) : Bool := c ≠ '\n' && c ≠ '\r'

/-- `_first_sentence_or_line` (views.py lines 256-259).  `"".splitlines()`
is the empty list, so the subscript `[0]` raises `IndexError` on the empty
string — hence the `Option` result. -/
def first_sentence_or_line (s : String) : Option String :=
  match s.toList with
  | [] => Option.none
  | l =>
    match findSentenceEnd [] (pyStripL (l.takeWhile notNL)) with
    | some pre => some (String.mk (pyStripL pre))
    | Option.none => some (String.mk (pyStripL (l.takeWhile notNL)))

/-- The character set of `.rstrip(",;:–-")` in `_cap_words`. -/
def capRstripChars : List Char := [',', ';', ':', '–', '-']

/-- `_cap_words` (views.py lines 261-265). -/
def cap_words (s : String) (maxWords : Nat) : String :=
  let words := pySplit s.toList
  if words.length ≤ maxWords then s
  else String.mk (pyRstripL capRstripChars (joinWords (words.take maxWords)) ++ ['…'])

/-- Case-insensitive literal-prefix strip: consume `pat` (compared after
lowercasing both sides) from the front of `l`. -/
def stripCI : List Char → List Char → Option (List Char)
  | [], l => some l
  | _ :: _, [] => Option.none
  | p :: ps, c :: cs => if c.toLower = p.toLower then stripCI ps cs else Option.none

/-- Try `label\s*:\s*` at the current position, returning the capture
(the rest after the colon and following whitespace). -/
def labelColonAt (label : List Char) (l : List Char) : Option (List Char) :=
  match stripCI label l with
  | some l1 =>
    match l1.dropWhile pyIsSpace with
    | ':' :: l2 => some (l2.dropWhile pyIsSpace)
    | _ => Option.none
  | Option.none => Option.none

/-- `re.search(rf"(?is)\b{label}\s*:\s*(.*)", t)`: scan for the first
position with a word boundary before a case-insensitive occurrence of the
label followed by `\s*:\s*`; the capture runs to the end (DOTALL). -/
def searchLabel (label : List Char) : List Char → Bool → Option (List Char)
  | [], _ => Option.none
  | c :: rest, atBoundary =>
    match (if atBoundary then labelColonAt label (c :: rest) else Option.none) with
    | some cap => some cap
    | Option.none => searchLabel label rest (!pyIsWord c)

/-- Trailing-`undefined` stripper for
`re.sub(r"(?is)(?:\s*\bundefined\b\s*)+\Z", "", t)`, working on the
reversed character list; both call sites strip/rstrip the result, which
absorbs the only divergence (whitespace kept when a boundary check
fails). -/
def stripUndefRev : Nat → List Char → List Char
  | 0, lrev => lrev
  | fuel + 1, lrev =>
    let r := lrev.dropWhile pyIsSpace
    if subAt r "denifednu".toList then
      match r.drop 9 with
      | [] => []
      | c :: cs => if pyIsWord c then lrev else stripUndefRev fuel (c :: cs)
    else lrev

/-- The trailing-`undefined` regex substitution. -/
def stripUndefined (l : List Char) : List Char :=
  (stripUndefRev (l.length + 1) l.reverse).reverse

/-- `_extract_after_label` (views.py lines 267-273). -/
def extract_after_label (text : String) (label : String) : String :=
  let t := pyStripL text.toList
  let t2 :=
    match searchLabel label.toList t true with
    | some cap => pyStripL cap
    | Option.none => t
  String.mk (pyStripL (stripUndefined t2))

/-- `_tighten_hook` (views.py lines 276-281); `none` models the
`IndexError` from `_first_sentence_or_line` on an empty intermediate
string. -/
def tighten_hook (raw : String) : Option String :=
  (first_sentence_or_line (strip_md_noise (extract_after_label raw "Hook"))).map
    (fun t2 => ensure_end_punct (cap_words t2 16))

/-- `_tighten_cta` (views.py lines 328-333). -/
def tighten_cta (raw : String) : Option String :=
  (first_sentence_or_line (strip_md_noise (extract_after_label raw "CTA"))).map
    (fun t2 => ensure_end_punct (cap_words t2 20))

/-- Bullet characters of `r"^[\-\*•]\s*"`. -/
def bulletChar (c : Char) : Bool := c = '-' || c = '*' || c = '•'

/-- `re.sub(r"^[\-\*•]\s*", "", t, flags=re.MULTILINE)`: at each
line start, one bullet character and the following whitespace run
(which may span newlines) are removed. -/
def stripBulletsA : Nat → List Char → Bool → List Char
  | 0, l, _ => l
  | _ + 1, [], _ => []
  | fuel + 1, c :: rest, atLineStart =>
    if atLineStart && bulletChar c then
      let ws := rest.takeWhile pyIsSpace
      stripBulletsA fuel (rest.dropWhile pyIsSpace)
        (!ws.isEmpty && ws.getLastD 'x' = '\n')
    else c :: stripBulletsA fuel rest (c = '\n')

/-- Whitespace-run collapse for `re.sub(r"\s+", " ", t)`. -/
def collapseWsA : List Char → Bool → List Char
  | [], _ => []
  | c :: rest, inRun =>
    if pyIsSpace c then
      if inRun then collapseWsA rest true
      else ' ' :: collapseWsA rest true
    else c :: collapseWsA rest false

/-- The bullet-stripping substitution with its fuel instantiated. -/
def stripBullets (l : List Char) : List Char :=
  stripBulletsA (l.length + 1) l true

/-- The text of `_tighten_body` after label extraction, markdown/bullet
stripping and whitespace collapsing (views.py lines 301-304). -/
def tighten_body_core (raw : String) : List Char :=
  pyStripL (collapseWsA
    (stripBullets (strip_md_noise (extract_after_label raw "Body")).toList) false)

/-- `_tighten_body` (views.py lines 300-306); total — no
`_first_sentence_or_line` step. -/
def tighten_body (raw : String) : String :=
  ensure_end_punct (cap_words (String.mk (tighten_body_core raw)) 80)

/-! ## Quality-gate regexes (views.py lines 246-248, 283-291, 308-317,
335-342) -/

/-- Try one `\b`-anchored alternative at the current position: the
alternative matches case-insensitively and is followed by a word
boundary. -/
def altWordAt (alt : List Char) (l : List Char) : Bool :=
  match stripCI alt l with
  | some rest =>
    match rest with
    | [] => true
    | c :: _ => !pyIsWord c
  | Option.none => false

/-- Scan for any of the `\b(...)\b` alternatives. -/
def scanAlts (alts : List (List Char)) : List Char → Bool → Bool
  | [], _ => false
  | c :: rest, atBoundary =>
    (atBoundary && alts.any (fun a => altWordAt a (c :: rest))) ||
      scanAlts alts rest (!pyIsWord c)

/-- The alternatives of `GENERIC_Q_RE` (each `'?`/`( a)?` option is
expanded into a concrete alternative). -/
def genericQAlts : List (List Char) :=
  ["ever wonder".toList, "have you ever".toList, "are you a".toList,
   "are you".toList, "did you know".toList,
   ("in today" ++ String.mk [Char.ofNat 39] ++ "s video").toList,
   "in todays video".toList,
   ("in today" ++ String.mk [Char.ofNat 39] ++ "s reel").toList,
   "in todays reel".toList, "in this video".toList,
   ("let" ++ String.mk [Char.ofNat 39] ++ "s dive in").toList,
   "lets dive in".toList]

/-- `GENERIC_Q_RE.search(s) is not None`. -/
def genericQSearch (l : List Char) : Bool := scanAlts genericQAlts l true

/-- `YOU_RE` = `(?i)\byou(?:r|’re|'re|\b)`: `you` after a word boundary,
followed by `r`, a curly or straight apostrophe plus `re`, or a word
boundary. -/
def youAt (l : List Char) : Bool :=
  match stripCI "you".toList l with
  | some rest =>
    (match rest with
     | [] => true
     | c :: rest2 =>
       (c.toLower = 'r') ||
       ((c = '’' || c = Char.ofNat 39) &&
         (stripCI "re".toList rest2).isSome) ||
       !pyIsWord c)
  | Option.none => false

/-- `YOU_RE.search(s) is not None`. -/
def youSearch : List Char → Bool → Bool
  | [], _ => false
  | c :: rest, atBoundary =>
    (atBoundary && youAt (c :: rest)) || youSearch rest (!pyIsWord c)

/-- The alternatives of `ACTION_VERBS_RE`. -/
def actionVerbAlts : List (List Char) :=
  ["save".toList, "comment".toList, "follow".toList, "dm".toList,
   "share".toList, "tap".toList, "try".toList, "use".toList,
   "apply".toList, "post".toList, "record".toList, "write".toList,
   "build".toList, "launch".toList, "fix".toList, "download".toList,
   "grab".toList, "join".toList, "watch".toList, "bookmark".toList]

/-- `ACTION_VERBS_RE.search(s) is not None`. -/
def actionVerbSearch (l : List Char) : Bool := scanAlts actionVerbAlts l true

/-- `_hook_needs_reforge` (views.py lines 283-291). -/
def hook_needs_reforge (h : String) : Bool :=
  if h = "" then true
  else
    let n := (pySplit h.toList).length
    decide (n < 8) || decide (n > 18) || !youSearch h.toList true ||
      genericQSearch h.toList

/-- `_body_needs_reforge` (views.py lines 308-317). -/
def body_needs_reforge (b : String) : Bool :=
  if b = "" then true
  else
    let n := (pySplit b.toList).length
    decide (n < 50) || decide (n > 100) || !youSearch b.toList true ||
      genericQSearch b.toList || !actionVerbSearch b.toList

/-- `_cta_needs_reforge` (views.py lines 335-342). -/
def cta_needs_reforge (c : String) : Bool :=
  if c = "" then true
  else
    decide ((pySplit c.toList).length > 24) || !actionVerbSearch c.toList ||
      !youSearch c.toList true

/-! ## `_normalize_sections` (views.py lines 224-243) -/

/-- `\r\n` and `\r` to `\n`. -/
def newlineFix : List Char → List Char
  | [] => []
  | '\r' :: '\n' :: rest => '\n' :: newlineFix rest
  | '\r' :: rest => '\n' :: newlineFix rest
  | c :: rest => c :: newlineFix rest

/-- `re.sub(r"^```(?:\w+)?\n", "", t)`. -/
def stripLeadFence (l : List Char) : List Char :=
  let bq := Char.ofNat 96
  if subAt l [bq, bq, bq] then
    match (l.drop 3).dropWhile pyIsWord with
    | '\n' :: r2 => r2
    | _ => l
  else l

/-- `re.sub(r"\n```$", "", t)` (`$` also matches before a single final
newline). -/
def stripTrailFence (l : List Char) : List Char :=
  let bq := Char.ofNat 96
  let r := l.reverse
  if subAt r [bq, bq, bq, '\n'] then (r.drop 4).reverse
  else if subAt r ['\n', bq, bq, bq, '\n'] then ('\n' :: r.drop 5).reverse
  else l

/-- The suffix just after a matched `\s*<label>\s*:` (helper for
`labelSubA`). -/
def afterColon (label : List Char) (l : List Char) : List Char :=
  let l1 := l.dropWhile pyIsSpace
  match stripCI label l1 with
  | some l2 =>
    (match l2.dropWhile pyIsSpace with
     | ':' :: l3 => l3
     | r => r)
  | Option.none => l1

/-- One pass of `re.sub(r"(?im)^\s*<label>\s*:", "<replacement>", t)`:
at each line start (in the original string), a whitespace run, the label
(case-insensitive) and a whitespace run before `:` are replaced. -/
def labelSubA (label repl : List Char) : Nat → List Char → Bool → List Char
  | 0, l, _ => l
  | _ + 1, [], _ => []
  | fuel + 1, c :: rest, atLineStart =>
    match (if atLineStart then labelColonAt label ((c :: rest).dropWhile pyIsSpace) else Option.none) with
    | some _ => repl ++ labelSubA label repl fuel (afterColon label (c :: rest)) false
    | Option.none => c :: labelSubA label repl fuel rest (c = '\n')

/-- Full `(?im)^\s*<label>\s*:` substitution. -/
def labelSub (label repl : String) (l : List Char) : List Char :=
  labelSubA label.toList repl.toList (l.length + 1) l true

/-- `str.rstrip()` (whitespace). -/
def rstripWs (l : List Char) : List Char :=
  (l.reverse.dropWhile pyIsSpace).reverse

/-- `_normalize_sections` (views.py lines 224-243). -/
def normalize_sections (text : String) : String :=
  if text = "" then text
  else
    let t0 := newlineFix text.toList
    let t1 := stripLeadFence t0
    let t2 := stripTrailFence t1
    let t3 := labelSub "hok" "Hook:" t2
    let t4 := labelSub "hook" "Hook:" t3
    let t5 := labelSub "body" "Body:" t4
    let t6 := labelSub "cta" "CTA:" t5
    String.mk (rstripWs (stripUndefined t6))

/-! ## `generate_review` (views.py lines 382-520).

The system-prompt constants are opaque stand-ins: the embedded control
flow never inspects prompt text, only passes it through to the completion
oracle, so the stand-ins preserve every claim-relevant behaviour. -/

/-- Stand-in for `SYSTEM_PROMPT` (views.py lines 42-62). -/
def SYSTEM_PROMPT : String := "SYSTEM_PROMPT"

/-- Stand-in for `HOOK_SYSTEM_PROMPT` (views.py lines 65-77). -/
def HOOK_SYSTEM_PROMPT : String := "HOOK_SYSTEM_PROMPT"

/-- Stand-in for `BODY_SYSTEM_PROMPT` (views.py lines 78-84). -/
def BODY_SYSTEM_PROMPT : String := "BODY_SYSTEM_PROMPT"

/-- Stand-in for `CTA_SYSTEM_PROMPT` (views.py lines 85-90). -/
def CTA_SYSTEM_PROMPT : String := "CTA_SYSTEM_PROMPT"

/-- Stand-in for `REFORGE_HOOK_SYSTEM_PROMPT` (views.py lines 293-297). -/
def REFORGE_HOOK_SYSTEM_PROMPT : String := "REFORGE_HOOK_SYSTEM_PROMPT"

/-- Stand-in for `REFORGE_BODY_SYSTEM_PROMPT` (views.py lines 319-325). -/
def REFORGE_BODY_SYSTEM_PROMPT : String := "REFORGE_BODY_SYSTEM_PROMPT"

/-- Stand-in for `REFORGE_CTA_SYSTEM_PROMPT` (views.py lines 344-349). -/
def REFORGE_CTA_SYSTEM_PROMPT : String := "REFORGE_CTA_SYSTEM_PROMPT"

/-- `hook_msgs` (views.py lines 414-417). -/
def hookMsgs (prompt : String) : List Msg :=
  [⟨"system", HOOK_SYSTEM_PROMPT⟩, ⟨"user", prompt⟩]

/-- The hook-reforge message list (views.py lines 424-431). -/
def reforgeHookMsgs (prompt hook : String) : List Msg :=
  [⟨"system", REFORGE_HOOK_SYSTEM_PROMPT⟩,
   ⟨"user", prompt ++ "\n\n" ++
     "Rewrite this into a direct, second-person, highly relatable one-liner (8–16 words), " ++
     "no generic questions:\nHook: " ++ hook⟩]

/-- `body_msgs` (views.py lines 436-442). -/
def bodyMsgs (prompt hook : String) : List Msg :=
  [⟨"system", BODY_SYSTEM_PROMPT⟩,
   ⟨"user", prompt ++ "\n\nUse this Hook (do not repeat it verbatim):\n" ++ hook⟩]

/-- The body-reforge message list (views.py lines 450-457). -/
def reforgeBodyMsgs (prompt bodyTxt : String) : List Msg :=
  [⟨"system", REFORGE_BODY_SYSTEM_PROMPT⟩,
   ⟨"user", prompt ++ "\n\n" ++
     "Rewrite this Body to be more human, persuasive, and concrete (60–90 words):\n" ++
     "Body: " ++ bodyTxt⟩]

/-- `cta_msgs` (views.py lines 462-468). -/
def ctaMsgs (prompt bodyTxt : String) : List Msg :=
  [⟨"system", CTA_SYSTEM_PROMPT⟩,
   ⟨"user", prompt ++ "\n\nHere is the Body to build a CTA for:\n" ++ bodyTxt⟩]

/-- The CTA-reforge message list (views.py lines 476-482). -/
def reforgeCtaMsgs (prompt ctaTxt : String) : List Msg :=
  [⟨"system", REFORGE_CTA_SYSTEM_PROMPT⟩,
   ⟨"user", prompt ++ "\n\n" ++
     "Rewrite this CTA to be imperative, viewer-directed, and specific:\nCTA: " ++ ctaTxt⟩]

/-- The single-shot message list (views.py lines 506-509). -/
def singleShotMsgs (prompt : String) : List Msg :=
  [⟨"system", SYSTEM_PROMPT⟩, ⟨"user", prompt⟩]

/-- `generate_with_fallback`'s source-level `(content, meta, err)` value
for one message list. -/
def gwf (call : Oracle) (msgs : List Msg) : Option String × PyVal × Option PyVal :=
  (generate_with_fallback call msgs).1

/-- Lift a tighten result; `none` (the `IndexError` from
`_first_sentence_or_line`) escapes the view as an exception. -/
def liftTighten : Option String → Except PyErr String
  | some t => .ok t
  | Option.none => .error .indexError

/-- The Hook stage of the Premium pipeline (views.py lines 413-433): the
main hook call, tightening, and the one optional reforge.  `ok none`
means the hook completion returned no content (fall through to
single-shot); `ok (some h)` is the accepted hook text. -/
def hookStage (call : Oracle) (prompt : String) : Except PyErr (Option String) := do
  match (gwf call (hookMsgs prompt)).1 with
  | some raw =>
    if raw = "" then return Option.none
    else
      let h0 ← liftTighten (tighten_hook raw)
      if hook_needs_reforge h0 then
        match (gwf call (reforgeHookMsgs prompt h0)).1 with
        | some raw2 =>
          if raw2 = "" then return (some h0)
          else do
            let h1 ← liftTighten (tighten_hook raw2)
            return (some h1)
        | Option.none => return (some h0)
      else return (some h0)
  | Option.none => return Option.none

/-- The Body stage (views.py lines 435-459), given the accepted hook:
main body call, tightening (total), optional reforge.  `none` means the
body completion returned no content. -/
def bodyStage (call : Oracle) (prompt hook : String) : Option String :=
  match (gwf call (bodyMsgs prompt hook)).1 with
  | some raw =>
    if raw = "" then Option.none
    else
      let b0 := tighten_body raw
      if body_needs_reforge b0 then
        match (gwf call (reforgeBodyMsgs prompt b0)).1 with
        | some raw2 => if raw2 = "" then some b0 else some (tighten_body raw2)
        | Option.none => some b0
      else some b0
  | Option.none => Option.none

/-- The CTA stage (views.py lines 461-484), given the accepted body. -/
def ctaStage (call : Oracle) (prompt bodyTxt : String) :
    Except PyErr (Option String) := do
  match (gwf call (ctaMsgs prompt bodyTxt)).1 with
  | some raw =>
    if raw = "" then return Option.none
    else
      let c0 ← liftTighten (tighten_cta raw)
      if cta_needs_reforge c0 then
        match (gwf call (reforgeCtaMsgs prompt c0)).1 with
        | some raw2 =>
          if raw2 = "" then return (some c0)
          else do
            let c1 ← liftTighten (tighten_cta raw2)
            return (some c1)
        | Option.none => return (some c0)
      else return (some c0)
  | Option.none => return Option.none

/-- `{"mode": mode, **meta}`. -/
def withMode (mode : String) (meta : PyVal) : PyVal :=
  match meta with
  | .dict kvs => .dict (("mode", .str mode) :: kvs)
  | m => .dict [("mode", .str mode), ("meta", m)]

/-- The single-shot tail of `generate_review` (views.py lines 505-520):
the pair is the `JsonResponse` body and HTTP status (200 on content,
otherwise the 502 upstream-failure payload; `DEBUG_MODE` is the config
default `False`, so no upstream body is attached). -/
def singleShotResult (call : Oracle) (prompt : String) : PyVal × Nat :=
  let r := gwf call (singleShotMsgs prompt)
  if strTruthy r.1 then
    (.dict [("response", .str (normalize_sections (pyStrip (r.1.getD "")))),
            ("meta", withMode "single_shot" r.2.1)], 200)
  else
    (.dict [("error", .str "Upstream model failed"), ("meta", r.2.1)], 502)

/-- The successful stepwise response (views.py lines 486-495). -/
def stepwiseResult (call : Oracle) (prompt hook bodyTxt ctaTxt : String) :
    PyVal × Nat :=
  let combined :=
    "Hook: " ++ hook ++ "\n\nBody: " ++ bodyTxt ++ "\n\nCTA: " ++ ctaTxt
  (.dict [("response", .str (normalize_sections (pyStrip combined))),
          ("meta", .dict
            [("mode", .str "premium_stepwise"),
             ("hook", (gwf call (hookMsgs prompt)).2.1),
             ("body", (gwf call (bodyMsgs prompt hook)).2.1),
             ("cta", (gwf call (ctaMsgs prompt bodyTxt)).2.1)])], 200)

/-- `generate_review` (views.py lines 382-520) for a request whose
resolved plan is `plan` and whose built user prompt is `prompt`
(method/JSON validation and identity resolution happen before this
point).  A thrown `PyErr` is an exception escaping the view. -/
def generate_review (call : Oracle) (plan prompt : String) :
    Except PyErr (PyVal × Nat) := do
  if plan = "Premium" then
    match ← hookStage call prompt with
    | some hook =>
      match bodyStage call prompt hook with
      | some bodyTxt =>
        match ← ctaStage call prompt bodyTxt with
        | some ctaTxt => return stepwiseResult call prompt hook bodyTxt ctaTxt
        | Option.none => return singleShotResult call prompt
      | Option.none => return singleShotResult call prompt
    | Option.none => return singleShotResult call prompt
  else return singleShotResult call prompt

/-! ## Statement helpers for the tightening bounds -/

/-- The last character of `l`, if any, is not whitespace. -/
def noTrailWs (l : List Char) : Prop :=
  ∀ c, l.getLast? = some c → pyIsSpace c = false

/-- The string ends in one of `.`, `!`, `?`. -/
def endsPunct (s : String) : Bool :=
  match s.toList.getLast? with
  | some c => termPunct c
  | Option.none => false

/-! ## Theorems -/

/-! ### Word-splitting lemmas for the section-tightening bounds -/

theorem string_toList_mk (l : List Char) : (String.mk l).toList = l := rfl

theorem pySplit_cons2 (c d : Char) (rest : List Char) :
    pySplit (c :: d :: rest) =
      if pyIsSpace c then pySplit (d :: rest)
      else if pyIsSpace d then [c] :: pySplit (d :: rest)
      else
        match pySplit (d :: rest) with
        | [] => [[c]]
        | w :: ws => (c :: w) :: ws := rfl

theorem pySplit_word {w : List Char} (hne : w ≠ [])
    (hns : ∀ c ∈ w, pyIsSpace c = false) : pySplit w = [w] := by
  induction w with
  | nil => exact absurd rfl hne
  | cons c rest ih =>
    have hc : pyIsSpace c = false := hns c (by simp)
    cases rest with
    | nil => simp [pySplit, hc]
    | cons d rest' =>
      have hd : pyIsSpace d = false := hns d (by simp)
      have hr : pySplit (d :: rest') = [d :: rest'] :=
        ih (by simp) (fun x hx => hns x (List.mem_cons_of_mem c hx))
      rw [pySplit_cons2, hr]
      simp [hc, hd]

theorem pySplit_word_append {w : List Char} (t : List Char) (hne : w ≠ [])
    (hns : ∀ c ∈ w, pyIsSpace c = false) :
    pySplit (w ++ ' ' :: t) = w :: pySplit t := by
  induction w with
  | nil => exact absurd rfl hne
  | cons c rest ih =>
    have hc : pyIsSpace c = false := hns c (by simp)
    cases rest with
    | nil =>
      simp [pySplit, hc, show pyIsSpace ' ' = true from by decide]
    | cons d rest' =>
      have hd : pyIsSpace d = false := hns d (by simp)
      have ihr : pySplit ((d :: rest') ++ ' ' :: t) = (d :: rest') :: pySplit t :=
        ih (by simp) (fun x hx => hns x (List.mem_cons_of_mem c hx))
      simp only [List.cons_append] at ihr ⊢
      rw [pySplit_cons2, ihr]
      simp [hc, hd]

theorem pySplit_sound : ∀ l : List Char, ∀ w ∈ pySplit l,
    w ≠ [] ∧ ∀ c ∈ w, pyIsSpace c = false := by
  intro l
  induction l with
  | nil => simp [pySplit]
  | cons c rest ih =>
    by_cases hc : pyIsSpace c = true
    · simpa [pySplit, hc] using ih
    · simp only [Bool.not_eq_true] at hc
      cases rest with
      | nil =>
        intro w hw
        simp [pySplit, hc] at hw
        subst hw
        exact ⟨by simp, fun x hx => by simp at hx; simpa [hx] using hc⟩
      | cons d rest' =>
        by_cases hd : pyIsSpace d = true
        · intro w hw
          rw [pySplit_cons2] at hw
          simp [hc, hd] at hw
          rcases hw with rfl | hw
          · exact ⟨by simp, fun x hx => by simp at hx; simpa [hx] using hc⟩
          · exact ih w hw
        · simp only [Bool.not_eq_true] at hd
          rcases hr : pySplit (d :: rest') with _ | ⟨w0, ws0⟩
          · intro w hw
            rw [pySplit_cons2, hr] at hw
            simp [hc, hd] at hw
            subst hw
            exact ⟨by simp, fun x hx => by simp at hx; simpa [hx] using hc⟩
          · intro w hw
            rw [pySplit_cons2, hr] at hw
            simp [hc, hd] at hw
            rcases hw with rfl | hw
            · have h0 := ih w0 (by rw [hr]; simp)
              refine ⟨by simp, fun x hx => ?_⟩
              rcases List.mem_cons.mp hx with rfl | hx
              · exact hc
              · exact h0.2 x hx
            · exact ih w (by rw [hr]; simp [hw])

theorem pySplit_snoc {z c : Char} (hz : pyIsSpace z = false)
    (hc : pyIsSpace c = false) : ∀ x : List Char,
    ∃ ws w, pySplit (x ++ [z]) = ws ++ [w] ∧
      pySplit (x ++ [z] ++ [c]) = ws ++ [w ++ [c]] := by
  intro x
  induction x with
  | nil =>
    refine ⟨[], [z], by simp [pySplit, hz], ?_⟩
    show pySplit (z :: [c]) = [] ++ [[z] ++ [c]]
    rw [pySplit_cons2]
    simp [hz, hc, pySplit]
  | cons a x' ih =>
    obtain ⟨ws, w, h1, h2⟩ := ih
    by_cases ha : pyIsSpace a = true
    · rcases hL : x' ++ [z] with _ | ⟨d, L'⟩
      · exact absurd hL (by simp)
      · refine ⟨ws, w, ?_, ?_⟩
        · show pySplit (a :: (x' ++ [z])) = ws ++ [w]
          rw [hL, pySplit_cons2]
          simp only [ha, if_true]
          rw [← hL, h1]
        · show pySplit (a :: (x' ++ [z] ++ [c])) = ws ++ [w ++ [c]]
          rw [show x' ++ [z] ++ [c] = d :: (L' ++ [c]) by rw [hL]; rfl, pySplit_cons2]
          simp only [ha, if_true]
          rw [show d :: (L' ++ [c]) = (d :: L') ++ [c] from rfl, ← hL, h2]
    · simp only [Bool.not_eq_true] at ha
      cases x' with
      | nil =>
        refine ⟨[], [a, z], ?_, ?_⟩
        · show pySplit (a :: z :: []) = [[a, z]]
          rw [pySplit_cons2]
          simp [ha, hz, pySplit]
        · show pySplit (a :: z :: [c]) = [] ++ [[a, z] ++ [c]]
          rw [pySplit_cons2]
          have hz2 : pySplit (z :: [c]) = [[z, c]] := by
            rw [pySplit_cons2]
            simp [hz, hc, pySplit]
          rw [hz2]
          simp [ha, hz]
      | cons b x'' =>
        by_cases hb : pyIsSpace b = true
        · refine ⟨[a] :: ws, w, ?_, ?_⟩
          · show pySplit (a :: (b :: x'' ++ [z])) = ([a] :: ws) ++ [w]
            rw [List.cons_append, pySplit_cons2]
            simp only [ha, if_false, Bool.false_eq_true, hb, if_true]
            rw [show b :: (x'' ++ [z]) = (b :: x'') ++ [z] from rfl, h1]
            rfl
          · show pySplit (a :: (b :: x'' ++ [z] ++ [c])) = ([a] :: ws) ++ [w ++ [c]]
            rw [List.cons_append, List.cons_append, pySplit_cons2]
            simp only [ha, if_false, Bool.false_eq_true, hb, if_true]
            rw [show b :: (x'' ++ [z] ++ [c]) = (b :: x'') ++ [z] ++ [c] by simp, h2]
            rfl
        · simp only [Bool.not_eq_true] at hb
          have hbx : (b :: x'') ++ [z] = b :: (x'' ++ [z]) := rfl
          cases ws with
          | nil =>
            refine ⟨[], a :: w, ?_, ?_⟩
            · show pySplit (a :: (b :: x'' ++ [z])) = [a :: w]
              rw [List.cons_append, pySplit_cons2]
              rw [show b :: (x'' ++ [z]) = (b :: x'') ++ [z] from rfl, h1]
              simp [ha, hb]
            · show pySplit (a :: (b :: x'' ++ [z] ++ [c])) = [] ++ [(a :: w) ++ [c]]
              rw [List.cons_append, List.cons_append, pySplit_cons2]
              rw [show b :: (x'' ++ [z] ++ [c]) = (b :: x'') ++ [z] ++ [c] by simp, h2]
              simp [ha, hb]
          | cons u us =>
            refine ⟨(a :: u) :: us, w, ?_, ?_⟩
            · show pySplit (a :: (b :: x'' ++ [z])) = ((a :: u) :: us) ++ [w]
              rw [List.cons_append, pySplit_cons2]
              rw [show b :: (x'' ++ [z]) = (b :: x'') ++ [z] from rfl, h1]
              simp [ha, hb]
            · show pySplit (a :: (b :: x'' ++ [z] ++ [c])) = ((a :: u) :: us) ++ [w ++ [c]]
              rw [List.cons_append, List.cons_append, pySplit_cons2]
              rw [show b :: (x'' ++ [z] ++ [c]) = (b :: x'') ++ [z] ++ [c] by simp, h2]
              simp [ha, hb]

theorem pySplit_joinWords : ∀ ws : List (List Char),
    (∀ w ∈ ws, w ≠ [] ∧ ∀ c ∈ w, pyIsSpace c = false) →
    pySplit (joinWords ws) = ws := by
  intro ws
  induction ws with
  | nil => intro _; rfl
  | cons w vs ih =>
    intro h
    cases vs with
    | nil =>
      exact pySplit_word (h w (by simp)).1 (h w (by simp)).2
    | cons v vs' =>
      have hj : joinWords (w :: v :: vs') = w ++ ' ' :: joinWords (v :: vs') := rfl
      rw [hj, pySplit_word_append _ (h w (by simp)).1 (h w (by simp)).2,
        ih (fun u hu => h u (List.mem_cons_of_mem w hu))]

theorem joinWords_concat : ∀ (xs : List (List Char)) (y : List Char),
    xs ≠ [] → joinWords (xs ++ [y]) = joinWords xs ++ ' ' :: y := by
  intro xs
  induction xs with
  | nil => intro y h; exact absurd rfl h
  | cons x xs' ih =>
    intro y _
    cases xs' with
    | nil => rfl
    | cons v t =>
      have := ih y (by simp)
      show joinWords (x :: ((v :: t) ++ [y])) = (x ++ ' ' :: joinWords (v :: t)) ++ ' ' :: y
      rw [show joinWords (x :: ((v :: t) ++ [y])) = x ++ ' ' :: joinWords ((v :: t) ++ [y])
        from rfl, this]
      simp

theorem pyRstripL_subset (set : List Char) (l : List Char) :
    ∀ c ∈ pyRstripL set l, c ∈ l := by
  intro c hc
  unfold pyRstripL at hc
  rw [List.mem_reverse] at hc
  have := (List.dropWhile_sublist (l := l.reverse) (fun c => set.contains c)).subset hc
  simpa using this

theorem pyRstripL_append_space (set : List Char) (hsp : set.contains ' ' = false)
    (x w : List Char) :
    pyRstripL set (x ++ ' ' :: w) =
      if pyRstripL set w = [] then x ++ [' '] else x ++ ' ' :: pyRstripL set w := by
  have hrev : (x ++ ' ' :: w).reverse = w.reverse ++ ' ' :: x.reverse := by simp
  by_cases h : pyRstripL set w = []
  · have h2 : w.reverse.dropWhile (fun c => set.contains c) = [] := by
      unfold pyRstripL at h
      simpa using h
    rw [if_pos h]
    unfold pyRstripL
    rw [hrev, List.dropWhile_append, h2]
    simp only [List.isEmpty_nil, if_true]
    rw [List.dropWhile_cons_of_neg (by
      intro hcon
      have hcon2 : set.contains ' ' = true := hcon
      rw [hsp] at hcon2
      exact Bool.noConfusion hcon2)]
    simp
  · have h2 : w.reverse.dropWhile (fun c => set.contains c) ≠ [] := by
      unfold pyRstripL at h
      simpa using h
    rw [if_neg h]
    unfold pyRstripL
    rw [hrev, List.dropWhile_append]
    rw [if_neg (by simpa [List.isEmpty_iff] using h2)]
    simp

theorem noTrailWs_pyStripL (l : List Char) : noTrailWs (pyStripL l) := by
  intro c hc
  unfold pyStripL at hc
  rw [List.getLast?_reverse] at hc
  have := List.head?_dropWhile_not pyIsSpace (l.dropWhile pyIsSpace).reverse
  rw [hc] at this
  exact this

theorem noTrailWs_append_last (x : List Char) (c : Char)
    (hc : pyIsSpace c = false) : noTrailWs (x ++ [c]) := by
  intro d hd
  rw [List.getLast?_concat] at hd
  cases hd
  exact hc

/-- The word-count bound of `_cap_words`: at most `maxWords` words out,
for positive caps. -/
theorem wordCount_cap_words_le (t : String) (n : Nat) (hn : 1 ≤ n) :
    wordCount (cap_words t n) ≤ n := by
  unfold cap_words
  by_cases hle : (pySplit t.toList).length ≤ n
  · rw [if_pos hle]
    exact hle
  · rw [if_neg hle]
    have hlen : ((pySplit t.toList).take n).length = n := by
      rw [List.length_take]
      omega
    have hsound : ∀ w ∈ (pySplit t.toList).take n,
        w ≠ [] ∧ ∀ c ∈ w, pyIsSpace c = false :=
      fun w hw => pySplit_sound t.toList w (List.take_subset n _ hw)
    rcases List.eq_nil_or_concat ((pySplit t.toList).take n) with hnil | ⟨front, w, hfw⟩
    · rw [hnil] at hlen; simp at hlen; omega
    · rw [List.concat_eq_append] at hfw
      rw [hfw] at hlen hsound ⊢
      have hw : w ≠ [] ∧ ∀ c ∈ w, pyIsSpace c = false := hsound w (by simp)
      have hRsub : ∀ c ∈ pyRstripL capRstripChars w, c ∈ w := pyRstripL_subset _ _
      have hellip : pyIsSpace '…' = false := by decide
      have hspset : capRstripChars.contains ' ' = false := by decide
      cases front with
      | nil =>
        show (pySplit (pyRstripL capRstripChars (joinWords ([] ++ [w])) ++ ['…'])).length ≤ n
        have hj : joinWords ([] ++ [w]) = w := rfl
        rw [hj]
        by_cases hR : pyRstripL capRstripChars w = []
        · rw [hR, pySplit_word (by simp) (by decide)]
          simpa using hn
        · rw [pySplit_word (by simp) ?hns]
          case hns =>
            intro c hcm
            rcases List.mem_append.mp hcm with hcm | hcm
            · exact hw.2 c (hRsub c hcm)
            · simp at hcm; simpa [hcm] using hellip
          simpa using hn
      | cons f front' =>
        show (pySplit (pyRstripL capRstripChars (joinWords ((f :: front') ++ [w])) ++ ['…'])).length ≤ n
        have hfr : (f :: front') ≠ [] := by simp
        rw [joinWords_concat _ _ hfr]
        rw [pyRstripL_append_space _ hspset]
        have hfront : ∀ u ∈ (f :: front'), u ≠ [] ∧ ∀ c ∈ u, pyIsSpace c = false :=
          fun u hu => hsound u (List.mem_append_left _ hu)
        have hlen2 : (f :: front').length + 1 = n := by
          simpa using hlen
        by_cases hR : pyRstripL capRstripChars w = []
        · rw [if_pos hR]
          have heq : (joinWords (f :: front') ++ [' ']) ++ ['…'] =
              joinWords ((f :: front') ++ [['…']]) := by
            rw [joinWords_concat _ _ hfr]
            simp
          rw [heq]
          rw [pySplit_joinWords _ ?hsnd]
          case hsnd =>
            intro u hu
            rcases List.mem_append.mp hu with hu | hu
            · exact hfront u hu
            · simp at hu; subst hu; exact ⟨by simp, by decide⟩
          simp only [List.length_cons] at hlen2
          simp only [List.length_append, List.length_cons, List.length_nil]
          omega
        · rw [if_neg hR]
          have heq : (joinWords (f :: front') ++ ' ' :: pyRstripL capRstripChars w) ++ ['…'] =
              joinWords ((f :: front') ++ [pyRstripL capRstripChars w ++ ['…']]) := by
            rw [joinWords_concat _ _ hfr]
            simp
          rw [heq]
          rw [pySplit_joinWords _ ?hsnd2]
          case hsnd2 =>
            intro u hu
            rcases List.mem_append.mp hu with hu | hu
            · exact hfront u hu
            · simp only [List.mem_singleton] at hu
              subst hu
              refine ⟨by simp, ?_⟩
              intro c hcm
              rcases List.mem_append.mp hcm with hcm | hcm
              · exact hw.2 c (hRsub c hcm)
              · simp at hcm; simpa [hcm] using hellip
          simp only [List.length_cons] at hlen2
          simp only [List.length_append, List.length_cons, List.length_nil]
          omega

theorem cap_words_noTrailWs (t : String) (n : Nat) (ht : noTrailWs t.toList) :
    noTrailWs (cap_words t n).toList := by
  unfold cap_words
  by_cases hle : (pySplit t.toList).length ≤ n
  · rw [if_pos hle]; exact ht
  · rw [if_neg hle]
    exact noTrailWs_append_last _ _ (by decide)

theorem ensure_end_punct_spec (s : String) (hs : noTrailWs s.toList) :
    wordCount (ensure_end_punct s) = wordCount s ∧
    (ensure_end_punct s ≠ "" → endsPunct (ensure_end_punct s) = true) := by
  unfold ensure_end_punct
  by_cases hm : endPunctMatch s.toList = true
  · rw [if_pos hm]
    refine ⟨rfl, fun _ => ?_⟩
    unfold endPunctMatch at hm
    rcases hrev : s.toList.reverse with _ | ⟨c, rest⟩
    · rw [hrev] at hm; simp [endPunctRev] at hm
    · rw [hrev] at hm
      have hm2 := hm
      simp only [endPunctRev] at hm2
      have hlast : s.toList.getLast? = some c := by
        rw [← List.head?_reverse, hrev]; rfl
      have hcs : pyIsSpace c = false := hs c hlast
      unfold endsPunct
      rw [hlast]
      by_cases hp : termPunct c = true
      · simpa using hp
      · exfalso
        by_cases hnl : c = '\n'
        · rw [hnl] at hcs
          exact Bool.noConfusion (by rw [← hcs]; decide : (true : Bool) = false)
        · rw [if_neg hp, if_neg hnl] at hm2
          exact Bool.noConfusion hm2
  · rw [if_neg hm]
    by_cases hemp : s = ""
    · rw [if_pos hemp]
      exact ⟨rfl, fun hne => (hne hemp).elim⟩
    · rw [if_neg hemp]
      have hne' : s.toList ≠ [] := by
        intro h
        exact hemp (String.ext h)
      obtain ⟨x, z, hxz⟩ : ∃ x z, s.toList = x ++ [z] := by
        rcases List.eq_nil_or_concat s.toList with h | ⟨x, z, h⟩
        · exact absurd h hne'
        · exact ⟨x, z, by rw [h, List.concat_eq_append]⟩
      have hz : pyIsSpace z = false := hs z (by rw [hxz, List.getLast?_concat])
      obtain ⟨ws, w, h1, h2⟩ :=
        pySplit_snoc hz (show pyIsSpace '.' = false by decide) x
      constructor
      · unfold wordCount
        rw [show (s ++ ".").toList = s.toList ++ ['.'] from String.data_append s ".",
          hxz, h2, h1]
        simp
      · intro _
        unfold endsPunct
        rw [show (s ++ ".").toList = s.toList ++ ['.'] from String.data_append s ".",
          List.getLast?_concat]
        rfl

theorem first_sentence_noTrailWs (s t : String)
    (h : first_sentence_or_line s = some t) : noTrailWs t.toList := by
  unfold first_sentence_or_line at h
  rcases hl : s.toList with _ | ⟨c, rest⟩
  · rw [hl] at h; exact Option.noConfusion h
  · rw [hl] at h
    have h2 : (match findSentenceEnd [] (pyStripL ((c :: rest).takeWhile notNL)) with
      | some pre => some (String.mk (pyStripL pre))
      | Option.none => some (String.mk (pyStripL ((c :: rest).takeWhile notNL)))) = some t := h
    rcases hf : findSentenceEnd [] (pyStripL ((c :: rest).takeWhile notNL)) with _ | pre
    · rw [hf] at h2
      have ht : t = String.mk (pyStripL ((c :: rest).takeWhile notNL)) :=
        (Option.some.inj h2).symm
      rw [ht]
      exact noTrailWs_pyStripL _
    · rw [hf] at h2
      have ht : t = String.mk (pyStripL pre) := (Option.some.inj h2).symm
      rw [ht]
      exact noTrailWs_pyStripL _

/-- The shared tail of the tightening pipelines: capping then
punctuation-fixing a whitespace-trimmed string respects the word cap and
ends in terminal punctuation. -/
theorem tighten_tail_spec (t : String) (n : Nat) (hn : 1 ≤ n)
    (ht : noTrailWs t.toList) :
    wordCount (ensure_end_punct (cap_words t n)) ≤ n ∧
    (ensure_end_punct (cap_words t n) ≠ "" →
      endsPunct (ensure_end_punct (cap_words t n)) = true) := by
  have h1 := wordCount_cap_words_le t n hn
  have h2 := cap_words_noTrailWs t n ht
  have h3 := ensure_end_punct_spec (cap_words t n) h2
  exact ⟨by rw [h3.1]; exact h1, h3.2⟩

/-- C7: the outputs of `_tighten_hook`, `_tighten_body` and `_tighten_cta`
contain at most 16, 80 and 20 words respectively, and whenever the output
is non-empty it ends in terminal punctuation (`.`, `!` or `?`).
`_tighten_hook`/`_tighten_cta` raise `IndexError` (modelled as `none`)
when the text left after label extraction and markdown stripping is
empty; the bounds hold for every produced output. -/
theorem tighten_output_bounds (raw out : String) :
    (tighten_hook raw = some out →
      wordCount out ≤ 16 ∧ (out ≠ "" → endsPunct out = true)) ∧
    (tighten_cta raw = some out →
      wordCount out ≤ 20 ∧ (out ≠ "" → endsPunct out = true)) ∧
    (tighten_body raw = out →
      wordCount out ≤ 80 ∧ (out ≠ "" → endsPunct out = true)) := by
  refine ⟨fun h => ?_, fun h => ?_, fun h => ?_⟩
  · unfold tighten_hook at h
    rcases ho : first_sentence_or_line (strip_md_noise (extract_after_label raw "Hook"))
      with _ | t2
    · rw [ho] at h; exact Option.noConfusion h
    · rw [ho] at h
      simp only [Option.map_some'] at h
      have hout : ensure_end_punct (cap_words t2 16) = out := Option.some.inj h
      rw [← hout]
      exact tighten_tail_spec t2 16 (by omega) (first_sentence_noTrailWs _ _ ho)
  · unfold tighten_cta at h
    rcases ho : first_sentence_or_line (strip_md_noise (extract_after_label raw "CTA"))
      with _ | t2
    · rw [ho] at h; exact Option.noConfusion h
    · rw [ho] at h
      simp only [Option.map_some'] at h
      have hout : ensure_end_punct (cap_words t2 20) = out := Option.some.inj h
      rw [← hout]
      exact tighten_tail_spec t2 20 (by omega) (first_sentence_noTrailWs _ _ ho)
  · unfold tighten_body at h
    rw [← h]
    have hnt : noTrailWs (String.mk (tighten_body_core raw)).toList := by
      rw [string_toList_mk, tighten_body_core]
      exact noTrailWs_pyStripL _
    exact tighten_tail_spec (String.mk (tighten_body_core raw)) 80 (by omega) hnt

set_option maxHeartbeats 2000000 in
/-- C7 witness: concrete runs of all three tightening functions. -/
theorem tighten_output_bounds_witness :
    (wordCount "a." ≤ 16 ∧ ("a." ≠ "" → endsPunct "a." = true)) ∧
    (wordCount "b." ≤ 20 ∧ ("b." ≠ "" → endsPunct "b." = true)) ∧
    (wordCount "c d." ≤ 80 ∧ ("c d." ≠ "" → endsPunct "c d." = true)) :=
  ⟨(tighten_output_bounds "Hook: a" "a.").1 rfl,
   (tighten_output_bounds "CTA: b" "b.").2.1 rfl,
   (tighten_output_bounds "Body: c d" "c d.").2.2 rfl⟩

/-- C1: for every user record, paid plan (`Pro` or `Premium`) and non-empty
transaction id `t`, invoking `_fs_set_user` twice with the same plan and
the same `t` grants credits only on the first call: after the first
successful call, the second call changes neither the `credits` field nor
adds any entry to `processedTxns`. -/
theorem fs_set_user_paid_txn_idempotent (d : UserDoc) (plan : String)
    (amt : Option Int) (t : String)
    (hplan : plan = "Pro" ∨ plan = "Premium") (ht : t ≠ "") :
    (fs_set_user d plan amt (some t)).1 = true ∧
    (fs_set_user (fs_set_user d plan amt (some t)).2 plan amt (some t)).1 = true ∧
    (fs_set_user (fs_set_user d plan amt (some t)).2 plan amt (some t)).2.credits
      = (fs_set_user d plan amt (some t)).2.credits ∧
    (fs_set_user (fs_set_user d plan amt (some t)).2 plan amt (some t)).2.processedTxns
      = (fs_set_user d plan amt (some t)).2.processedTxns := by
  have hb : plan ≠ "Basic" := by rcases hplan with h | h <;> simp [h]
  have hp : plan ∈ PAID_PLANS := by
    rcases hplan with h | h <;> simp [h, PAID_PLANS]
  by_cases hmem : t ∈ d.processedTxns
  · simp [fs_set_user, hb, hp, ht, hmem, mergeSet, baseUpdates]
  · have h2 : t ∈ d.processedTxns ++ [t] := by simp
    simp [fs_set_user, hb, hp, ht, hmem, h2, mergeSet, baseUpdates]

/-- C1 witness. -/
theorem fs_set_user_paid_txn_idempotent_witness :
    (fs_set_user
      (fs_set_user ⟨false, "", 0, false, [], none, none⟩ "Pro" (some 200) (some "txn1")).2
      "Pro" (some 200) (some "txn1")).2.credits
    = (fs_set_user ⟨false, "", 0, false, [], none, none⟩ "Pro" (some 200) (some "txn1")).2.credits :=
  (fs_set_user_paid_txn_idempotent ⟨false, "", 0, false, [], none, none⟩
    "Pro" (some 200) "txn1" (Or.inl rfl) (by decide)).2.2.1

/-- An always-failing completion oracle (used as a witness input). -/
def oracleAllFail : Oracle := fun _ _ => ⟨Option.none, PyVal.none, some (.str "err")⟩

/-- C5: whenever the primary-model call returns no content, exactly one
further completion call is made, to the fallback model with the identical
message list; on success its content is returned, and if it also fails the
returned error carries both the primary and the fallback error contexts. -/
theorem generate_with_fallback_retries_once (call : Oracle) (messages : List Msg)
    (h : strTruthy (call messages OPENROUTER_MODEL_PRIMARY).content = false) :
    (generate_with_fallback call messages).2
      = [(messages, OPENROUTER_MODEL_PRIMARY), (messages, OPENROUTER_MODEL_FALLBACK)] ∧
    (strTruthy (call messages OPENROUTER_MODEL_FALLBACK).content = true →
      (generate_with_fallback call messages).1
        = ((call messages OPENROUTER_MODEL_FALLBACK).content,
           (call messages OPENROUTER_MODEL_FALLBACK).meta, Option.none)) ∧
    (strTruthy (call messages OPENROUTER_MODEL_FALLBACK).content = false →
      (generate_with_fallback call messages).1
        = (Option.none, (call messages OPENROUTER_MODEL_FALLBACK).meta,
           some (.dict
             [("primary", optVal (call messages OPENROUTER_MODEL_PRIMARY).err),
              ("fallback", optVal (call messages OPENROUTER_MODEL_FALLBACK).err)]))) := by
  by_cases h2 : strTruthy (call messages OPENROUTER_MODEL_FALLBACK).content
  · simp [generate_with_fallback, h, h2]
  · simp only [Bool.not_eq_true] at h2
    simp [generate_with_fallback, h, h2]

/-- C5 witness. -/
theorem generate_with_fallback_retries_once_witness :
    (generate_with_fallback oracleAllFail [⟨"system", "s"⟩]).2
      = [([⟨"system", "s"⟩], OPENROUTER_MODEL_PRIMARY),
         ([⟨"system", "s"⟩], OPENROUTER_MODEL_FALLBACK)] ∧
    (strTruthy (oracleAllFail [⟨"system", "s"⟩] OPENROUTER_MODEL_FALLBACK).content = true →
      (generate_with_fallback oracleAllFail [⟨"system", "s"⟩]).1
        = ((oracleAllFail [⟨"system", "s"⟩] OPENROUTER_MODEL_FALLBACK).content,
           (oracleAllFail [⟨"system", "s"⟩] OPENROUTER_MODEL_FALLBACK).meta, Option.none)) ∧
    (strTruthy (oracleAllFail [⟨"system", "s"⟩] OPENROUTER_MODEL_FALLBACK).content = false →
      (generate_with_fallback oracleAllFail [⟨"system", "s"⟩]).1
        = (Option.none, (oracleAllFail [⟨"system", "s"⟩] OPENROUTER_MODEL_FALLBACK).meta,
           some (.dict
             [("primary", optVal (oracleAllFail [⟨"system", "s"⟩] OPENROUTER_MODEL_PRIMARY).err),
              ("fallback", optVal (oracleAllFail [⟨"system", "s"⟩] OPENROUTER_MODEL_FALLBACK).err)]))) :=
  generate_with_fallback_retries_once oracleAllFail [⟨"system", "s"⟩] rfl

/-- A completion oracle that succeeds only on the Hook message list for
prompt `"p"` (witness input). -/
def oracleHookOnly : Oracle := fun msgs _ =>
  if msgs = hookMsgs "p" then ⟨some "Hook: you need this", PyVal.none, Option.none⟩
  else ⟨Option.none, PyVal.none, Option.none⟩

/-- A completion oracle that succeeds on the Hook and Body message lists
for prompt `"p"` but fails the CTA call (witness input). -/
def oracleHookBody : Oracle := fun msgs _ =>
  if msgs = hookMsgs "p" then ⟨some "Hook: you need this", PyVal.none, Option.none⟩
  else if msgs = bodyMsgs "p" "you need this." then
    ⟨some "Body: you should save this", PyVal.none, Option.none⟩
  else ⟨Option.none, PyVal.none, Option.none⟩

/-- C6: in the Premium stepwise pipeline, if Hook generation fails, or
Body or CTA generation fails after a successful Hook, `generate_review`
returns exactly the single-shot tail — which is either a 200 response
tagged mode `"single_shot"` or the 502 upstream-failure response — and
never a partial stepwise result. -/
theorem generate_review_stepwise_failure_single_shot (call : Oracle) (prompt : String) :
    (hookStage call prompt = .ok Option.none →
      generate_review call "Premium" prompt = .ok (singleShotResult call prompt)) ∧
    (∀ h, hookStage call prompt = .ok (some h) →
      bodyStage call prompt h = Option.none →
      generate_review call "Premium" prompt = .ok (singleShotResult call prompt)) ∧
    (∀ h b, hookStage call prompt = .ok (some h) →
      bodyStage call prompt h = some b →
      ctaStage call prompt b = .ok Option.none →
      generate_review call "Premium" prompt = .ok (singleShotResult call prompt)) ∧
    ((singleShotResult call prompt).2 = 200 ∧
      pyGet (pyGet (singleShotResult call prompt).1 "meta") "mode" = .str "single_shot" ∨
     (singleShotResult call prompt).2 = 502) := by
  refine ⟨fun h1 => ?_, fun h h1 h2 => ?_, fun h b h1 h2 h3 => ?_, ?_⟩
  · simp [generate_review, h1, Bind.bind, Except.bind, pure, Except.pure]
  · simp [generate_review, h1, h2, Bind.bind, Except.bind, pure, Except.pure]
  · simp [generate_review, h1, h2, h3, Bind.bind, Except.bind, pure, Except.pure]
  · by_cases hc : strTruthy (gwf call (singleShotMsgs prompt)).1
    · left
      constructor
      · simp [singleShotResult, hc]
      · rcases hm : (gwf call (singleShotMsgs prompt)).2.1 with _ | b | n | q | s | xs | kvs <;>
          simp [singleShotResult, hc, hm, withMode, pyGet, List.lookup]
    · right
      simp only [Bool.not_eq_true] at hc
      simp [singleShotResult, hc]

/-- C6 witness: all three failure shapes, each landing on the single-shot
tail. -/
theorem generate_review_stepwise_failure_single_shot_witness :
    generate_review oracleAllFail "Premium" "p" = .ok (singleShotResult oracleAllFail "p") ∧
    generate_review oracleHookOnly "Premium" "p" = .ok (singleShotResult oracleHookOnly "p") ∧
    generate_review oracleHookBody "Premium" "p" = .ok (singleShotResult oracleHookBody "p") :=
  ⟨(generate_review_stepwise_failure_single_shot oracleAllFail "p").1 rfl,
   (generate_review_stepwise_failure_single_shot oracleHookOnly "p").2.1
     "you need this." rfl rfl,
   (generate_review_stepwise_failure_single_shot oracleHookBody "p").2.2.1
     "you need this." "you should save this." rfl rfl rfl⟩

/-- C3: refuted on the code — for an allow-listed event with a determined
plan and an identity present, `paddle_webhook` does not return HTTP 200:
the call `_fs_set_user(uid, plan, credits, by_uid=True)` passes `credits`
as a third positional argument to the keyword-only `credits_to_grant`, so
the view raises `TypeError` (HTTP 500).  Only when no identity is present
does the handler reach the claimed `\x7bok: true, no_user: true\x7d`
acknowledgement. -/
theorem paddle_webhook_typeerror_on_matched_event :
    paddle_webhook (.dict [("event", .dict
      [("type", .str "transaction.completed"),
       ("data", .dict
         [("custom_data", .dict [("plan", .str "Pro")]),
          ("passthrough", .dict [("uid", .str "u1")])])])])
      = .error (.typeError
          "_fs_set_user() takes 2 positional arguments but 3 were given") ∧
    paddle_webhook (.dict [("event", .dict
      [("type", .str "transaction.completed"),
       ("data", .dict [("custom_data", .dict [("plan", .str "Pro")])])])])
      = .ok (.dict [("ok", .bool true), ("no_user", .bool true)]) :=
  ⟨rfl, rfl⟩

/-- C4: refuted on the code — base64-encoding the JSON serialisation of
the mapping `\x7b"uid": "u1"\x7d` and passing it as the passthrough value
makes `_decode_passthrough` return the empty mapping, not the original
mapping: the `base64.b64decode` attempt raises `NameError` (`base64` is
never imported), and the base64 text is not valid JSON. -/
theorem decode_passthrough_base64_roundtrip_fails :
    b64encode (jsonDumps (PyVal.dict [("uid", .str "u1")])) = "eyJ1aWQiOiAidTEifQ==" ∧
    decode_passthrough (.str (b64encode (jsonDumps (PyVal.dict [("uid", .str "u1")]))))
      = .dict [] ∧
    decode_passthrough (.str (jsonDumps (PyVal.dict [("uid", .str "u1")])))
      = .dict [("uid", .str "u1")] := by
  refine ⟨by decide, ?_, ?_⟩ <;> rfl

/-- C9: refuted on the code — a POST to `/api/confirm-plan/` with a
non-empty uid and a valid plan makes `confirm_plan` raise `TypeError`
(`_fs_set_user(uid, plan, credits, by_uid=True)` passes a third positional
argument to the keyword-only `credits_to_grant`), so the handler
propagates an exception instead of returning `\x7bok: ...\x7d`. -/
theorem confirm_plan_typeerror_on_valid_input :
    confirm_plan (.dict [("uid", .str "u1"), ("plan", .str "Pro")])
      = .error (.typeError
          "_fs_set_user() takes 2 positional arguments but 3 were given") :=
  rfl

/-- C8: refuted on the code — `refresh_credits` on a paid user with
`credits = 0` (with or without a stored depletion timestamp) raises
`NameError`: line 1098 evaluates the unbound name `datetime` (the module
imports only `datetime as _dt`), so none of the claimed stamp/refill
behaviours is reachable. -/
theorem refresh_credits_nameerror_on_paid_depleted :
    refresh_credits ⟨true, "Pro", 0, false, [], Option.none, Option.none⟩
      = .error (.nameError "datetime") ∧
    refresh_credits ⟨true, "Pro", 0, false, [], Option.none, some "2025-01-01T00:00:00Z"⟩
      = .error (.nameError "datetime") :=
  ⟨rfl, rfl⟩

/-- C2: for every account, invoking the Basic ledger update twice changes
`credits` at most once: every Basic call leaves `freeBasicGranted` set, so
a second Basic call leaves the `credits` field unchanged, regardless of
any transaction id or explicit amount supplied. -/
theorem fs_set_user_basic_idempotent (d : UserDoc) (amt amt' : Option Int)
    (tid tid' : Option String) :
    (d.freeBasicGranted = true →
      (fs_set_user d "Basic" amt tid).2.credits = d.credits) ∧
    (fs_set_user d "Basic" amt tid).2.freeBasicGranted = true ∧
    (fs_set_user (fs_set_user d "Basic" amt tid).2 "Basic" amt' tid').2.credits
      = (fs_set_user d "Basic" amt tid).2.credits := by
  by_cases hflag : d.freeBasicGranted
  · simp [fs_set_user, hflag, mergeSet, baseUpdates]
  · simp only [Bool.not_eq_true] at hflag
    simp [fs_set_user, hflag, mergeSet, baseUpdates]

/-- C2 witness. -/
theorem fs_set_user_basic_idempotent_witness :
    ((⟨true, "Basic", 50, true, [], none, none⟩ : UserDoc).freeBasicGranted = true →
      (fs_set_user ⟨true, "Basic", 50, true, [], none, none⟩ "Basic" none none).2.credits
        = (⟨true, "Basic", 50, true, [], none, none⟩ : UserDoc).credits) ∧
    (fs_set_user ⟨true, "Basic", 50, true, [], none, none⟩ "Basic" none none).2.freeBasicGranted = true ∧
    (fs_set_user (fs_set_user ⟨true, "Basic", 50, true, [], none, none⟩ "Basic" none none).2
        "Basic" (some 50) (some "t")).2.credits
      = (fs_set_user ⟨true, "Basic", 50, true, [], none, none⟩ "Basic" none none).2.credits :=
  fs_set_user_basic_idempotent ⟨true, "Basic", 50, true, [], none, none⟩
    none (some 50) none (some "t")

/-- C10: whenever `_fs_set_user` grants credits (a Basic grant with
`freeBasicGranted` unset, a paid grant with a fresh non-empty transaction
id, or a paid grant with no transaction id), the resulting `credits` field
equals exactly the grant amount — the explicit amount when given,
otherwise the plan default (`Basic` 50, `Pro` 200, `Premium` 1000) — for
every starting record, hence independent of (never added to) the previous
balance. -/
theorem fs_set_user_grant_overwrites (d : UserDoc) (plan : String)
    (amt : Option Int) (t : String)
    (hplan : plan = "Pro" ∨ plan = "Premium") (ht : t ≠ "")
    (hfresh : t ∉ d.processedTxns) (hflag : d.freeBasicGranted = false) :
    (fs_set_user d "Basic" amt none).2.credits = 50 ∧
    (fs_set_user d plan amt (some t)).2.credits
      = amt.getD (planCreditsGet plan 0) ∧
    (fs_set_user d plan amt none).2.credits
      = amt.getD (planCreditsGet plan 0) ∧
    planCreditsGet "Pro" 0 = 200 ∧ planCreditsGet "Premium" 0 = 1000 ∧
    planCreditsGet "Basic" 0 = 50 := by
  have hb : plan ≠ "Basic" := by rcases hplan with h | h <;> simp [h]
  have hp : plan ∈ PAID_PLANS := by
    rcases hplan with h | h <;> simp [h, PAID_PLANS]
  refine ⟨?_, ?_, ?_, rfl, rfl, rfl⟩ <;>
    simp [fs_set_user, hb, hp, ht, hfresh, hflag, mergeSet, baseUpdates,
      planCreditsGet, PLAN_CREDITS]

/-- C10 witness: a record with a previous balance of 999 ends at exactly
the grant amount. -/
theorem fs_set_user_grant_overwrites_witness :
    (fs_set_user ⟨false, "", 999, false, ["old"], none, none⟩ "Basic" none none).2.credits = 50 ∧
    (fs_set_user ⟨false, "", 999, false, ["old"], none, none⟩ "Premium" none (some "t9")).2.credits
      = (none : Option Int).getD (planCreditsGet "Premium" 0) ∧
    (fs_set_user ⟨false, "", 999, false, ["old"], none, none⟩ "Premium" none none).2.credits
      = (none : Option Int).getD (planCreditsGet "Premium" 0) ∧
    planCreditsGet "Pro" 0 = 200 ∧ planCreditsGet "Premium" 0 = 1000 ∧
    planCreditsGet "Basic" 0 = 50 :=
  fs_set_user_grant_overwrites ⟨false, "", 999, false, ["old"], none, none⟩
    "Premium" none "t9" (Or.inr rfl) (by decide) (by decide) rfl

end CreatorFlow
